import Mathlib

/-!
Shallow embedding of the `iroha_crypto` crate (src/crypto/src/lib.rs):
the `Algorithm` enumeration, key types (`PublicKey`, `PrivateKey`,
`KeyPair`), key generation, hex codecs and the multihash text form of
public keys, together with proofs of the specified properties.

The underlying `ursa` signature schemes are an external crate; their
`keypair` entry point is abstracted as an explicit function parameter
(`UrsaKeypairFn`), and every theorem quantifies over it.  The
`multihash`/`varint` modules are declared by the crate but their sources
are not available here; they are modelled from the specification, with
the concrete byte layout pinned by the display fixtures in the crate's
own test module.
-/

set_option maxRecDepth 4000

/-- Algorithm for hashing / signing, `enum Algorithm` in the source.
Variants: Ed25519 (the `#[default]`), Secp256k1, BlsNormal, BlsSmall. -/
inductive Algorithm where
  | Ed25519
  | Secp256k1
  | BlsNormal
  | BlsSmall
deriving DecidableEq, Repr

/-- The `#[default]` variant of `Algorithm` (Rust `Default` derive). -/
def Algorithm.default : Algorithm := Algorithm.Ed25519

/-- Constant `ED_25519`. -/
def ED_25519 : String := "ed25519"

/-- Constant `SECP_256_K1`. -/
def SECP_256_K1 : String := "secp256k1"

/-- Constant `BLS_NORMAL`. -/
def BLS_NORMAL : String := "bls_normal"

/-- Constant `BLS_SMALL`. -/
def BLS_SMALL : String := "bls_small"

/-- Error struct `NoSuchAlgorithm` (unit struct in the source). -/
structure NoSuchAlgorithm where
deriving DecidableEq, Repr

/-- The `Display` impl of `Algorithm`: each variant prints its fixed
lowercase name constant. -/
def Algorithm.display : Algorithm → String
  | .Ed25519 => ED_25519
  | .Secp256k1 => SECP_256_K1
  | .BlsNormal => BLS_NORMAL
  | .BlsSmall => BLS_SMALL

/-- The `FromStr` impl of `Algorithm`: a Rust `match` on the string
against the four name constants, any other string is `NoSuchAlgorithm`. -/
def Algorithm.from_str (algorithm : String) : Except NoSuchAlgorithm Algorithm :=
  if algorithm = ED_25519 then .ok .Ed25519
  else if algorithm = SECP_256_K1 then .ok .Secp256k1
  else if algorithm = BLS_NORMAL then .ok .BlsNormal
  else if algorithm = BLS_SMALL then .ok .BlsSmall
  else .error ⟨⟩

/-- Error enum `ursa::CryptoError` of the external `ursa` crate
(shape taken from the `From<ursa::CryptoError> for Error` impl in the
source, which matches on exactly these six variants). -/
inductive CryptoError where
  | NoSuchAlgorithm (detail : String)
  | ParseError (detail : String)
  | SigningError (detail : String)
  | KeyGenError (detail : String)
  | DigestGenError (detail : String)
  | GeneralError (detail : String)
deriving DecidableEq, Repr

/-- Error enum `Error` of the crate. -/
inductive Error where
  | NoSuchAlgorithm
  | Parse (detail : String)
  | Signing (detail : String)
  | KeyGen (detail : String)
  | DigestGen (detail : String)
  | EmptySignatureIter
  | Other (detail : String)
deriving DecidableEq, Repr

/-- Whether an `Error` is of the `KeyGen` class. -/
def Error.is_key_gen : Error → Bool
  | .KeyGen _ => true
  | _ => false

/-- The `From<ursa::CryptoError> for Error` impl. -/
def Error.fromCryptoError : CryptoError → Error
  | .NoSuchAlgorithm _ => .NoSuchAlgorithm
  | .ParseError s => .Parse s
  | .SigningError s => .Signing s
  | .KeyGenError s => .KeyGen s
  | .DigestGenError s => .DigestGen s
  | .GeneralError s => .Other s

/-- Bytes are modelled as natural numbers; a `Vec<u8>` is a `List Nat`
whose elements are below 256 where that matters. -/
abbrev Bytes := List Nat

/-- Struct `PublicKey`: a digest function tag and a payload byte vector. -/
structure PublicKey where
  digest_function : Algorithm
  payload : Bytes
deriving DecidableEq, Repr

/-- Struct `PrivateKey`: a digest function tag and a payload byte vector. -/
structure PrivateKey where
  digest_function : Algorithm
  payload : Bytes
deriving DecidableEq, Repr

/-- Struct `KeyPair`: a public and a private key. -/
structure KeyPair where
  public_key : PublicKey
  private_key : PrivateKey
deriving DecidableEq, Repr

/-- Method `KeyPair::digest_function`: reads the private key's digest
function. -/
def KeyPair.digest_function (kp : KeyPair) : Algorithm :=
  kp.private_key.digest_function

/-- Enum `KeyGenOption`: a raw seed or an existing private key. -/
inductive KeyGenOption where
  | UseSeed (seed : Bytes)
  | FromPrivateKey (key : PrivateKey)
deriving DecidableEq, Repr

/-- Enum `ursa::keys::KeyGenOption` as used by the crate: a raw seed or
a raw secret-key payload. -/
inductive UrsaKeyGenOption where
  | UseSeed (seed : Bytes)
  | FromSecretKey (payload : Bytes)
deriving DecidableEq, Repr

/-- The `TryFrom<KeyGenOption> for UrsaKeyGenOption` impl: a seed passes
through; `FromPrivateKey` is accepted for Ed25519 and Secp256k1 and is a
`NoSuchAlgorithm` error for every other algorithm. -/
def UrsaKeyGenOption.try_from : KeyGenOption → Except NoSuchAlgorithm UrsaKeyGenOption
  | .UseSeed seed => .ok (.UseSeed seed)
  | .FromPrivateKey key =>
    match key.digest_function with
    | .Ed25519 => .ok (.FromSecretKey key.payload)
    | .Secp256k1 => .ok (.FromSecretKey key.payload)
    | _ => .error ⟨⟩

/-- Struct `KeyGenConfiguration`. -/
structure KeyGenConfiguration where
  key_gen_option : Option KeyGenOption
  algorithm : Algorithm
deriving DecidableEq, Repr

/-- The `Default` impl of `KeyGenConfiguration`: no option, default
algorithm. -/
def KeyGenConfiguration.default : KeyGenConfiguration :=
  { key_gen_option := none, algorithm := Algorithm.default }

/-- Abstraction of the external `ursa` schemes' `keypair` entry point.
The source dispatches on the algorithm to `Ed25519Sha512.keypair`,
`EcdsaSecp256k1Sha256::new().keypair`, `BlsNormal::new().keypair` or
`BlsSmall::new().keypair`; here the selected scheme is the first
argument and the result is the raw `(public, private)` payload pair or
an `ursa` error.  Theorems quantify over this function, so they hold
for any behaviour of the external library (including any realisation
of its internal randomness). -/
def UrsaKeypairFn : Type :=
  Algorithm → Option UrsaKeyGenOption → Except CryptoError (Bytes × Bytes)

/-- Method `PublicKey::try_from_private`: runs the scheme's `keypair`
with `FromSecretKey(private_key.payload)` and tags the resulting public
payload with the private key's digest function; an `ursa` error is
mapped through `From<ursa::CryptoError> for Error`. -/
def PublicKey.try_from_private (ursa : UrsaKeypairFn) (private_key : PrivateKey) :
    Except Error PublicKey :=
  match ursa private_key.digest_function
      (some (.FromSecretKey private_key.payload)) with
  | .ok (public_key, _) =>
    .ok { digest_function := private_key.digest_function, payload := public_key }
  | .error e => .error (Error.fromCryptoError e)

/-- The `From<PrivateKey> for PublicKey` impl: `try_from_private`
followed by `.expect("can't fail for valid PrivateKey")`.  The panic on
the error branch is modelled as `none`. -/
def PublicKey.from_private (ursa : UrsaKeypairFn) (private_key : PrivateKey) :
    Option PublicKey :=
  match PublicKey.try_from_private ursa private_key with
  | .ok pk => some pk
  | .error _ => none

/-- Method `KeyPair::new`: rejects mismatched digest functions, then
derives the public key from the private key (panicking, `none`, if the
derivation itself fails) and rejects a derived key unequal to the given
public key; both rejections are `KeyGen` errors. -/
def KeyPair.new (ursa : UrsaKeypairFn) (public_key : PublicKey)
    (private_key : PrivateKey) : Option (Except Error KeyPair) :=
  if private_key.digest_function ≠ public_key.digest_function then
    some (.error (.KeyGen "Mismatch of key algorithms"))
  else
    match PublicKey.from_private ursa private_key with
    | none => none
    | some derived =>
      if derived ≠ public_key then
        some (.error (.KeyGen "Key pair mismatch"))
      else
        some (.ok { public_key := public_key, private_key := private_key })

/-- Method `KeyPair::generate_with_configuration`: converts the
optional `KeyGenOption` (a failure becomes `Error::NoSuchAlgorithm`
through the `From<NoSuchAlgorithm> for Error` impl), runs the selected
scheme's `keypair`, and tags both payloads with the configured
algorithm. -/
def KeyPair.generate_with_configuration (ursa : UrsaKeypairFn)
    (configuration : KeyGenConfiguration) : Except Error KeyPair :=
  let digest_function := configuration.algorithm
  let transposed : Except NoSuchAlgorithm (Option UrsaKeyGenOption) :=
    match configuration.key_gen_option with
    | none => .ok none
    | some o => (UrsaKeyGenOption.try_from o).map some
  match transposed with
  | .error _ => .error .NoSuchAlgorithm
  | .ok key_gen_option =>
    match ursa configuration.algorithm key_gen_option with
    | .error e => .error (Error.fromCryptoError e)
    | .ok (public_key, private_key) =>
      .ok { public_key := { digest_function := digest_function, payload := public_key },
            private_key := { digest_function := digest_function, payload := private_key } }

/-- Method `KeyPair::generate`: `generate_with_configuration` of the
default configuration. -/
def KeyPair.generate (ursa : UrsaKeypairFn) : Except Error KeyPair :=
  KeyPair.generate_with_configuration ursa KeyGenConfiguration.default

/-- Value of a single hexadecimal digit character, accepting both
cases, as the `hex` crate's decoder does. -/
def hexDigitValue (c : Char) : Option Nat :=
  if 48 ≤ c.toNat ∧ c.toNat ≤ 57 then some (c.toNat - 48)
  else if 97 ≤ c.toNat ∧ c.toNat ≤ 102 then some (c.toNat - 87)
  else if 65 ≤ c.toNat ∧ c.toNat ≤ 70 then some (c.toNat - 55)
  else none

/-- Core of `hex::decode`: consumes the characters two at a time, each
pair one byte; fails on an odd count or a non-hex character. -/
def hexPairs : List Char → Option Bytes
  | [] => some []
  | [_] => none
  | c1 :: c2 :: rest =>
    match hexDigitValue c1, hexDigitValue c2, hexPairs rest with
    | some h, some l, some tail => some ((16 * h + l) :: tail)
    | _, _, _ => none

/-- Function `hex_decode` of the crate: drops every space character,
then `hex::decode`, mapping a decoder failure to `Error::Parse`. -/
def hex_decode (payload : String) : Except Error Bytes :=
  match hexPairs (payload.data.filter (fun c => c ≠ ' ')) with
  | some bytes => .ok bytes
  | none => .error (.Parse "invalid hex")

/-- Lower-case hexadecimal digit character for a value below 16. -/
def lowerHexDigit (n : Nat) : Char :=
  if n < 10 then Char.ofNat (48 + n) else Char.ofNat (87 + n)

/-- Upper-case hexadecimal digit character for a value below 16. -/
def upperHexDigit (n : Nat) : Char :=
  if n < 10 then Char.ofNat (48 + n) else Char.ofNat (55 + n)

/-- One byte as two lower-case hexadecimal characters. -/
def hexByteLower (b : Nat) : List Char :=
  [lowerHexDigit (b / 16 % 16), lowerHexDigit (b % 16)]

/-- One byte as two upper-case hexadecimal characters. -/
def hexByteUpper (b : Nat) : List Char :=
  [upperHexDigit (b / 16 % 16), upperHexDigit (b % 16)]

/-- The `hex::encode` function: lower-case hexadecimal of a byte
sequence. -/
def hexEncodeLower : Bytes → List Char
  | [] => []
  | b :: bs => hexByteLower b ++ hexEncodeLower bs

/-- The `hex::encode_upper` function: upper-case hexadecimal of a byte
sequence. -/
def hexEncodeUpper : Bytes → List Char
  | [] => []
  | b :: bs => hexByteUpper b ++ hexEncodeUpper bs

/-- Method `PrivateKey::from_hex_unchecked`: decodes the hex payload
and tags it with the digest function, with no validation beyond the hex
decoding itself. -/
def PrivateKey.from_hex_unchecked (digest_function : Algorithm) (payload : String) :
    Except Error PrivateKey :=
  match hex_decode payload with
  | .ok p => .ok { digest_function := digest_function, payload := p }
  | .error e => .error e

/-- Method `PrivateKey::from_hex`: decodes the hex payload, builds a
candidate key, validates it by deriving its public key (discarded), and
returns the key only when the derivation succeeds. -/
def PrivateKey.from_hex (ursa : UrsaKeypairFn) (digest_function : Algorithm)
    (payload : String) : Except Error PrivateKey :=
  match hex_decode payload with
  | .error e => .error e
  | .ok p =>
    match PublicKey.try_from_private ursa
        { digest_function := digest_function, payload := p } with
    | .ok _ => .ok { digest_function := digest_function, payload := p }
    | .error e => .error e

/-- The `Deserialize` impl of `PrivateKey`, modelled at the point where
the generic deserializer has already produced the candidate record
`(digest_function, payload hex string)`: the impl then validates via
`PrivateKey::from_hex`. -/
def PrivateKey.deserialize (ursa : UrsaKeypairFn) (digest_function : Algorithm)
    (payload : String) : Except Error PrivateKey :=
  PrivateKey.from_hex ursa digest_function payload

/-- The `Deserialize` impl of `KeyPair`, modelled at the point where the
generic deserializer has already produced the candidate record
`(public_key, private_key)`: the impl then validates via
`KeyPair::new`. -/
def KeyPair.deserialize (ursa : UrsaKeypairFn) (public_key : PublicKey)
    (private_key : PrivateKey) : Option (Except Error KeyPair) :=
  KeyPair.new ursa public_key private_key

/-- Structural helper for `varintEncode`: the first argument is fuel,
always sufficient when it exceeds the number being encoded. -/
def varintEncodeFuel : Nat → Nat → List Nat
  | 0, _ => []
  | fuel + 1, n =>
    if n < 128 then [n] else (n % 128 + 128) :: varintEncodeFuel fuel (n / 128)

/-- Modelled from the spec: the varint encoding used by the multihash
codec (module src/crypto/src/varint.rs is not among the sources) — a
base-128 little-endian encoding with a continuation bit on every byte
except the last. -/
def varintEncode (n : Nat) : List Nat := varintEncodeFuel (n + 1) n

/-- Modelled from the spec: varint decoding, the inverse of
`varintEncode`; returns the decoded value and the remaining bytes, and
accepts only the canonical (minimal) encoding, so that the multihash
codec round-trips losslessly as the spec requires. -/
def varintDecode : List Nat → Option (Nat × Bytes)
  | [] => none
  | b :: rest =>
    if b < 128 then some (b, rest)
    else
      match varintDecode rest with
      | some (v, r) => if v = 0 then none else some (b - 128 + 128 * v, r)
      | none => none

/-- Modelled from the spec: the multihash function code of each
algorithm (module src/crypto/src/multihash.rs is not among the
sources).  The codes are pinned by the display fixtures in the crate's
test module: `ed01`, `e701`, `ea01`, `eb01` are the two-byte varint
encodings of 0xed, 0xe7, 0xea, 0xeb. -/
def multihashFunctionCode : Algorithm → Nat
  | .Ed25519 => 0xed
  | .Secp256k1 => 0xe7
  | .BlsNormal => 0xea
  | .BlsSmall => 0xeb

/-- Modelled from the spec: the algorithm recognised for a multihash
function code, `none` for an unrecognised code. -/
def algorithmOfCode (code : Nat) : Option Algorithm :=
  if code = 0xed then some .Ed25519
  else if code = 0xe7 then some .Secp256k1
  else if code = 0xea then some .BlsNormal
  else if code = 0xeb then some .BlsSmall
  else none

/-- Modelled from the spec: struct `Multihash`, the self-describing
wire representation of a public key. -/
structure Multihash where
  digest_function : Algorithm
  payload : Bytes
deriving DecidableEq, Repr

/-- Modelled from the spec: the `TryFrom<&Multihash> for Vec<u8>`
conversion — varint function code, then the digest size, then the
payload.  The digest size is emitted as one byte (the size of the
payload), as pinned by the crate's display fixtures (the BlsSmall
fixture `eb01c1…` carries the size 193 in the single byte `c1`);
a payload longer than 255 bytes does not fit that byte and fails. -/
def Multihash.to_bytes (m : Multihash) : Option Bytes :=
  if m.payload.length < 256 then
    some (varintEncode (multihashFunctionCode m.digest_function)
      ++ m.payload.length :: m.payload)
  else none

/-- Modelled from the spec: the `TryFrom<Vec<u8>> for Multihash`
conversion — reads the varint function code (failing on an
unrecognised code), then the one-byte digest size, and requires the
remaining bytes to have exactly that length. -/
def Multihash.from_bytes (bytes : Bytes) : Except Error Multihash :=
  match varintDecode bytes with
  | none => .error (.Parse "malformed multihash")
  | some (code, rest) =>
    match algorithmOfCode code, rest with
    | some digest_function, size :: payload =>
      if payload.length = size then
        .ok { digest_function := digest_function, payload := payload }
      else .error (.Parse "digest size mismatch")
    | _, _ => .error (.Parse "unknown function code")

/-- The `FromStr` impl of `PublicKey`: hex-decode (spaces tolerated),
then decode the multihash and take its fields (the
`From<Multihash> for PublicKey` direction of the spec's lossless
round-trip). -/
def PublicKey.from_str (key : String) : Except Error PublicKey :=
  match hex_decode key with
  | .error e => .error e
  | .ok bytes =>
    match Multihash.from_bytes bytes with
    | .ok m => .ok { digest_function := m.digest_function, payload := m.payload }
    | .error e => .error e

/-- The `Display` impl of `PublicKey`: converts to multihash bytes
(the two `expect`s panic — `none` — when that conversion fails), then
prints the first two bytes and the third byte in lower-case hex and the
rest in upper-case hex, concatenated with no separator. -/
def PublicKey.display (pk : PublicKey) : Option String :=
  match Multihash.to_bytes
      { digest_function := pk.digest_function, payload := pk.payload } with
  | none => none
  | some bytes =>
    let fn_code := hexEncodeLower (bytes.take 2)
    let dig_size := hexEncodeLower ((bytes.drop 2).take 1)
    let key := hexEncodeUpper (bytes.drop 3)
    some (String.mk (fn_code ++ dig_size ++ key))

/-- The case normalization named by the spec for the text form of a
public key: the six multihash-prefix characters lower-case, the payload
characters upper-case. -/
def caseNormalize (s : String) : String :=
  String.mk ((s.data.take 6).map Char.toLower ++ (s.data.drop 6).map Char.toUpper)

/-- Whether an `Except` result is on the success branch. -/
def exceptOk {ε α : Type} : Except ε α → Bool
  | .ok _ => true
  | .error _ => false

/-- Decidable equality of Except results, used to evaluate concrete
outcomes in the closed theorems below. -/
instance {ε α : Type} [DecidableEq ε] [DecidableEq α] : DecidableEq (Except ε α) := fun x y =>
  match x, y with
  | .ok a, .ok b => if h : a = b then .isTrue (by rw [h]) else .isFalse (by simp [h])
  | .error a, .error b => if h : a = b then .isTrue (by rw [h]) else .isFalse (by simp [h])
  | .ok _, .error _ => .isFalse (by simp)
  | .error _, .ok _ => .isFalse (by simp)

theorem hexDigitValue_lowerHexDigit : ∀ d < 16, hexDigitValue (lowerHexDigit d) = some d := by
  decide

theorem hexDigitValue_upperHexDigit : ∀ d < 16, hexDigitValue (upperHexDigit d) = some d := by
  decide

theorem lowerHexDigit_ne_space : ∀ d < 16, lowerHexDigit d ≠ ' ' := by decide

theorem upperHexDigit_ne_space : ∀ d < 16, upperHexDigit d ≠ ' ' := by decide

theorem hexDigit_inv {c : Char} {d : Nat} (h : hexDigitValue c = some d) :
    d < 16 ∧ lowerHexDigit d = c.toLower ∧ upperHexDigit d = c.toUpper := by
  unfold hexDigitValue at h
  split_ifs at h with h1 h2 h3 <;> injection h with h
  · refine ⟨by omega, ?_, ?_⟩
    · unfold lowerHexDigit
      rw [if_pos (by omega)]
      unfold Char.toLower
      rw [if_neg (by omega)]
      have he : 48 + d = c.toNat := by omega
      rw [he, Char.ofNat_toNat]
    · unfold upperHexDigit
      rw [if_pos (by omega)]
      unfold Char.toUpper
      rw [if_neg (by omega)]
      have he : 48 + d = c.toNat := by omega
      rw [he, Char.ofNat_toNat]
  · refine ⟨by omega, ?_, ?_⟩
    · unfold lowerHexDigit
      rw [if_neg (by omega)]
      unfold Char.toLower
      rw [if_neg (by omega)]
      have he : 87 + d = c.toNat := by omega
      rw [he, Char.ofNat_toNat]
    · unfold upperHexDigit
      rw [if_neg (by omega)]
      unfold Char.toUpper
      rw [if_pos (by omega)]
      congr 1
      omega
  · refine ⟨by omega, ?_, ?_⟩
    · unfold lowerHexDigit
      rw [if_neg (by omega)]
      unfold Char.toLower
      rw [if_pos (by omega)]
      congr 1
      omega
    · unfold upperHexDigit
      rw [if_neg (by omega)]
      unfold Char.toUpper
      rw [if_neg (by omega)]
      have he : 55 + d = c.toNat := by omega
      rw [he, Char.ofNat_toNat]

theorem hexPairs_byteLower_cons {b : Nat} (hb : b < 256) (r : List Char) :
    hexPairs (hexByteLower b ++ r) = (hexPairs r).map (fun t => b :: t) := by
  have h1 : b / 16 % 16 = b / 16 := Nat.mod_eq_of_lt (by omega)
  have hd1 := hexDigitValue_lowerHexDigit (b / 16 % 16) (Nat.mod_lt _ (by omega))
  have hd2 := hexDigitValue_lowerHexDigit (b % 16) (Nat.mod_lt _ (by omega))
  have hb16 : 16 * (b / 16 % 16) + b % 16 = b := by
    rw [h1]
    omega
  show hexPairs (lowerHexDigit (b / 16 % 16) :: lowerHexDigit (b % 16) :: r) = _
  simp only [hexPairs, hd1, hd2]
  cases hr : hexPairs r with
  | none => simp
  | some t => simp [hb16]

theorem hexPairs_byteUpper_cons {b : Nat} (hb : b < 256) (r : List Char) :
    hexPairs (hexByteUpper b ++ r) = (hexPairs r).map (fun t => b :: t) := by
  have h1 : b / 16 % 16 = b / 16 := Nat.mod_eq_of_lt (by omega)
  have hd1 := hexDigitValue_upperHexDigit (b / 16 % 16) (Nat.mod_lt _ (by omega))
  have hd2 := hexDigitValue_upperHexDigit (b % 16) (Nat.mod_lt _ (by omega))
  have hb16 : 16 * (b / 16 % 16) + b % 16 = b := by
    rw [h1]
    omega
  show hexPairs (upperHexDigit (b / 16 % 16) :: upperHexDigit (b % 16) :: r) = _
  simp only [hexPairs, hd1, hd2]
  cases hr : hexPairs r with
  | none => simp
  | some t => simp [hb16]

theorem hexPairs_encodeLower_append (bs : Bytes) (hbs : ∀ b ∈ bs, b < 256) (r : List Char) :
    hexPairs (hexEncodeLower bs ++ r) = (hexPairs r).map (fun t => bs ++ t) := by
  induction bs with
  | nil =>
    simp [hexEncodeLower]
  | cons b bs ih =>
    have hb : b < 256 := hbs b (by simp)
    have hbs2 : ∀ x ∈ bs, x < 256 := fun x hx => hbs x (by simp [hx])
    simp only [hexEncodeLower, List.append_assoc]
    rw [hexPairs_byteLower_cons hb, ih hbs2]
    cases hexPairs r <;> simp

theorem hexPairs_encodeUpper_append (bs : Bytes) (hbs : ∀ b ∈ bs, b < 256) (r : List Char) :
    hexPairs (hexEncodeUpper bs ++ r) = (hexPairs r).map (fun t => bs ++ t) := by
  induction bs with
  | nil =>
    simp [hexEncodeUpper]
  | cons b bs ih =>
    have hb : b < 256 := hbs b (by simp)
    have hbs2 : ∀ x ∈ bs, x < 256 := fun x hx => hbs x (by simp [hx])
    simp only [hexEncodeUpper, List.append_assoc]
    rw [hexPairs_byteUpper_cons hb, ih hbs2]
    cases hexPairs r <;> simp

theorem hexEncodeLower_append (as bs : Bytes) :
    hexEncodeLower (as ++ bs) = hexEncodeLower as ++ hexEncodeLower bs := by
  induction as with
  | nil => simp [hexEncodeLower]
  | cons a as ih => simp [hexEncodeLower, ih]

theorem hexEncodeUpper_append (as bs : Bytes) :
    hexEncodeUpper (as ++ bs) = hexEncodeUpper as ++ hexEncodeUpper bs := by
  induction as with
  | nil => simp [hexEncodeUpper]
  | cons a as ih => simp [hexEncodeUpper, ih]

theorem mem_hexEncodeLower_ne_space (bs : Bytes) : ∀ c ∈ hexEncodeLower bs, c ≠ ' ' := by
  induction bs with
  | nil => simp [hexEncodeLower]
  | cons b bs ih =>
    intro c hc
    simp only [hexEncodeLower, hexByteLower, List.mem_append, List.mem_cons,
      List.not_mem_nil, or_false] at hc
    rcases hc with (h | h) | h
    · rw [h]
      exact lowerHexDigit_ne_space _ (Nat.mod_lt _ (by omega))
    · rw [h]
      exact lowerHexDigit_ne_space _ (Nat.mod_lt _ (by omega))
    · exact ih c h

theorem mem_hexEncodeUpper_ne_space (bs : Bytes) : ∀ c ∈ hexEncodeUpper bs, c ≠ ' ' := by
  induction bs with
  | nil => simp [hexEncodeUpper]
  | cons b bs ih =>
    intro c hc
    simp only [hexEncodeUpper, hexByteUpper, List.mem_append, List.mem_cons,
      List.not_mem_nil, or_false] at hc
    rcases hc with (h | h) | h
    · rw [h]
      exact upperHexDigit_ne_space _ (Nat.mod_lt _ (by omega))
    · rw [h]
      exact upperHexDigit_ne_space _ (Nat.mod_lt _ (by omega))
    · exact ih c h

theorem varintEncodeFuel_congr :
    ∀ (f1 f2 n : Nat), n < f1 → n < f2 → varintEncodeFuel f1 n = varintEncodeFuel f2 n
  | 0, _, _, h1, _ => absurd h1 (by omega)
  | _ + 1, 0, _, _, h2 => absurd h2 (by omega)
  | f1 + 1, f2 + 1, n, h1, h2 => by
    simp only [varintEncodeFuel]
    by_cases h : n < 128
    · rw [if_pos h, if_pos h]
    · rw [if_neg h, if_neg h]
      congr 1
      exact varintEncodeFuel_congr f1 f2 (n / 128) (by omega) (by omega)

theorem varintEncode_unfold (n : Nat) :
    varintEncode n = if n < 128 then [n] else (n % 128 + 128) :: varintEncode (n / 128) := by
  show varintEncodeFuel (n + 1) n = _
  simp only [varintEncodeFuel]
  by_cases h : n < 128
  · rw [if_pos h, if_pos h]
  · rw [if_neg h, if_neg h]
    congr 1
    exact varintEncodeFuel_congr n (n / 128 + 1) (n / 128) (by omega) (by omega)

theorem varintDecode_encode (n : Nat) (r : Bytes) :
    varintDecode (varintEncode n ++ r) = some (n, r) := by
  induction n using Nat.strong_induction_on with
  | _ n ih =>
    rw [varintEncode_unfold]
    by_cases h : n < 128
    · rw [if_pos h]
      simp [varintDecode, h]
    · rw [if_neg h]
      have hd : ¬ (n % 128 + 128 < 128) := by omega
      rw [List.cons_append, varintDecode, if_neg hd,
        ih (n / 128) (Nat.div_lt_self (by omega) (by omega))]
      have hz : ¬ (n / 128 = 0) := by omega
      show (if n / 128 = 0 then none
        else some (n % 128 + 128 - 128 + 128 * (n / 128), r)) = some (n, r)
      rw [if_neg hz]
      congr 2
      omega

theorem varintDecode_inv :
    ∀ (bytes : Bytes) (v : Nat) (r : Bytes), (∀ b ∈ bytes, b < 256) →
      varintDecode bytes = some (v, r) → varintEncode v ++ r = bytes
  | [], v, r, _, h => by simp [varintDecode] at h
  | b :: rest, v, r, hb, h => by
    rw [varintDecode] at h
    by_cases hlt : b < 128
    · rw [if_pos hlt] at h
      simp only [Option.some.injEq, Prod.mk.injEq] at h
      obtain ⟨h1, h2⟩ := h
      subst h1
      subst h2
      rw [varintEncode_unfold, if_pos hlt]
      rfl
    · rw [if_neg hlt] at h
      cases hd : varintDecode rest with
      | none => rw [hd] at h; cases h
      | some vr =>
        obtain ⟨v1, r1⟩ := vr
        rw [hd] at h
        replace h : (if v1 = 0 then none else some (b - 128 + 128 * v1, r1)) = some (v, r) := h
        by_cases hz : v1 = 0
        · rw [if_pos hz] at h; cases h
        · rw [if_neg hz] at h
          simp only [Option.some.injEq, Prod.mk.injEq] at h
          obtain ⟨h1, h2⟩ := h
          subst h1
          subst h2
          have hbb : b < 256 := hb b (by simp)
          have hrest : ∀ x ∈ rest, x < 256 := fun x hx => hb x (by simp [hx])
          have ihr := varintDecode_inv rest v1 r1 hrest hd
          rw [varintEncode_unfold, if_neg (by omega)]
          have e1 : (b - 128 + 128 * v1) % 128 + 128 = b := by omega
          have e2 : (b - 128 + 128 * v1) / 128 = v1 := by omega
          rw [e1, e2, List.cons_append, ihr]

theorem hexPairs_sound :
    ∀ (cs : List Char) (bs : Bytes), hexPairs cs = some bs →
      hexEncodeLower bs = cs.map Char.toLower ∧ hexEncodeUpper bs = cs.map Char.toUpper ∧
        ∀ b ∈ bs, b < 256
  | [], bs, h => by
    simp only [hexPairs, Option.some.injEq] at h
    subst h
    simp [hexEncodeLower, hexEncodeUpper]
  | [c], bs, h => by
    simp [hexPairs] at h
  | c1 :: c2 :: rest, bs, h => by
    simp only [hexPairs] at h
    cases hv1 : hexDigitValue c1 with
    | none => rw [hv1] at h; cases h
    | some d1 =>
      cases hv2 : hexDigitValue c2 with
      | none => rw [hv1, hv2] at h; cases h
      | some d2 =>
        cases hp : hexPairs rest with
        | none => rw [hv1, hv2, hp] at h; cases h
        | some tail =>
          rw [hv1, hv2, hp] at h
          simp only [Option.some.injEq] at h
          subst h
          obtain ⟨hd1, hl1, hu1⟩ := hexDigit_inv hv1
          obtain ⟨hd2, hl2, hu2⟩ := hexDigit_inv hv2
          obtain ⟨ihl, ihu, ihb⟩ := hexPairs_sound rest tail hp
          have hdiv : (16 * d1 + d2) / 16 % 16 = d1 := by omega
          have hmod : (16 * d1 + d2) % 16 = d2 := by omega
          refine ⟨?_, ?_, ?_⟩
          · simp only [hexEncodeLower, hexByteLower, hdiv, hmod, List.map_cons, ihl,
              hl1, hl2, List.cons_append, List.nil_append]
          · simp only [hexEncodeUpper, hexByteUpper, hdiv, hmod, List.map_cons, ihu,
              hu1, hu2, List.cons_append, List.nil_append]
          · intro b hb
            rcases List.mem_cons.mp hb with hb | hb
            · omega
            · exact ihb b hb

theorem varintEncode_code (a : Algorithm) :
    varintEncode (multihashFunctionCode a) = [multihashFunctionCode a, 1] := by
  cases a <;> decide

theorem multihashFunctionCode_lt (a : Algorithm) : multihashFunctionCode a < 256 := by
  cases a <;> decide

theorem algorithmOfCode_functionCode (a : Algorithm) :
    algorithmOfCode (multihashFunctionCode a) = some a := by
  cases a <;> decide

theorem algorithmOfCode_sound {code : Nat} {a : Algorithm}
    (h : algorithmOfCode code = some a) : multihashFunctionCode a = code := by
  unfold algorithmOfCode at h
  split_ifs at h with h1 h2 h3 h4 <;> injection h with h <;> subst h <;>
    simp only [multihashFunctionCode] <;> omega

theorem filter_hex_append (as bs : Bytes) :
    (hexEncodeLower as ++ hexEncodeUpper bs).filter (fun c => c ≠ ' ') =
      hexEncodeLower as ++ hexEncodeUpper bs := by
  rw [List.filter_eq_self]
  intro c hc
  rcases List.mem_append.mp hc with h | h
  · simpa using mem_hexEncodeLower_ne_space as c h
  · simpa using mem_hexEncodeUpper_ne_space bs c h

theorem display_eq (alg : Algorithm) (payload : Bytes) (hlen : payload.length < 256) :
    PublicKey.display { digest_function := alg, payload := payload } =
      some (String.mk (hexEncodeLower [multihashFunctionCode alg, 1]
        ++ hexEncodeLower [payload.length] ++ hexEncodeUpper payload)) := by
  have hb : Multihash.to_bytes { digest_function := alg, payload := payload } =
      some (multihashFunctionCode alg :: 1 :: payload.length :: payload) := by
    unfold Multihash.to_bytes
    rw [if_pos hlen, varintEncode_code]
    rfl
  unfold PublicKey.display
  rw [hb]
  simp [List.take, List.drop]

theorem from_str_display (alg : Algorithm) (payload : Bytes)
    (hlen : payload.length < 256) (hbytes : ∀ b ∈ payload, b < 256) :
    PublicKey.from_str (String.mk (hexEncodeLower [multihashFunctionCode alg, 1]
      ++ hexEncodeLower [payload.length] ++ hexEncodeUpper payload)) =
      .ok { digest_function := alg, payload := payload } := by
  have hjoin : hexEncodeLower [multihashFunctionCode alg, 1]
      ++ hexEncodeLower [payload.length] ++ hexEncodeUpper payload =
      hexEncodeLower [multihashFunctionCode alg, 1, payload.length]
        ++ hexEncodeUpper payload := by
    rw [show [multihashFunctionCode alg, 1, payload.length] =
      [multihashFunctionCode alg, 1] ++ [payload.length] from rfl,
      hexEncodeLower_append]
  have hpref : ∀ b ∈ [multihashFunctionCode alg, 1, payload.length], b < 256 := by
    intro b hb
    rcases List.mem_cons.mp hb with h | hb
    · rw [h]; exact multihashFunctionCode_lt alg
    rcases List.mem_cons.mp hb with h | hb
    · omega
    rcases List.mem_cons.mp hb with h | hb
    · omega
    · cases hb
  have hdec : hexPairs ((hexEncodeLower [multihashFunctionCode alg, 1, payload.length]
      ++ hexEncodeUpper payload).filter (fun c => c ≠ ' ')) =
      some ([multihashFunctionCode alg, 1, payload.length] ++ payload) := by
    rw [filter_hex_append, hexPairs_encodeLower_append _ hpref]
    have hu : hexPairs (hexEncodeUpper payload) = some payload := by
      have := hexPairs_encodeUpper_append payload hbytes []
      rw [List.append_nil] at this
      simpa [hexPairs] using this
    rw [hu]
    rfl
  have hv : varintDecode ([multihashFunctionCode alg, 1, payload.length] ++ payload) =
      some (multihashFunctionCode alg, payload.length :: payload) := by
    have := varintDecode_encode (multihashFunctionCode alg) (payload.length :: payload)
    rw [varintEncode_code] at this
    simpa using this
  have hmb : Multihash.from_bytes ([multihashFunctionCode alg, 1, payload.length] ++ payload) =
      .ok { digest_function := alg, payload := payload } := by
    simp only [Multihash.from_bytes, hv, algorithmOfCode_functionCode]
    simp
  have hhd : hex_decode (String.mk (hexEncodeLower [multihashFunctionCode alg, 1, payload.length]
      ++ hexEncodeUpper payload)) =
      .ok ([multihashFunctionCode alg, 1, payload.length] ++ payload) := by
    unfold hex_decode
    rw [show (String.mk (hexEncodeLower [multihashFunctionCode alg, 1, payload.length]
      ++ hexEncodeUpper payload)).data =
      hexEncodeLower [multihashFunctionCode alg, 1, payload.length]
      ++ hexEncodeUpper payload from rfl]
    rw [hdec]
  unfold PublicKey.from_str
  rw [hjoin, hhd]
  simp only [hmb]

theorem hex_decode_inv {s : String} {bs : Bytes} (h : hex_decode s = .ok bs) :
    hexPairs (s.data.filter (fun c => c ≠ ' ')) = some bs := by
  unfold hex_decode at h
  split at h
  · next hp =>
    injection h with h
    subst h
    exact hp
  · simp at h

theorem from_str_inv {s : String} {pk : PublicKey} (h : PublicKey.from_str s = .ok pk) :
    ∃ bytes, hex_decode s = .ok bytes ∧
      Multihash.from_bytes bytes =
        .ok { digest_function := pk.digest_function, payload := pk.payload } := by
  unfold PublicKey.from_str at h
  split at h
  · simp at h
  · next bytes hhd =>
    split at h
    · next m hmb =>
      injection h with h
      subst h
      exact ⟨bytes, hhd, by rw [hmb]⟩
    · simp at h

theorem from_bytes_inv {bytes : Bytes} {m : Multihash}
    (h : Multihash.from_bytes bytes = .ok m) :
    varintDecode bytes =
      some (multihashFunctionCode m.digest_function, m.payload.length :: m.payload) := by
  unfold Multihash.from_bytes at h
  split at h
  · simp at h
  · next code rest hvd =>
    split at h
    · next digest_function size payload2 hao =>
      split_ifs at h with hsz
      injection h with h
      subst h
      simp [hvd, algorithmOfCode_sound hao, hsz]
    · simp at h

theorem from_str_accepted_display (s : String) (pk : PublicKey)
    (h : PublicKey.from_str s = .ok pk) :
    PublicKey.display pk =
      some (caseNormalize (String.mk (s.data.filter (fun c => c ≠ ' ')))) := by
  obtain ⟨alg, payload⟩ := pk
  obtain ⟨bytes, hhd, hmb⟩ := from_str_inv h
  have hp : hexPairs (s.data.filter (fun c => c ≠ ' ')) = some bytes := hex_decode_inv hhd
  have hvd := from_bytes_inv hmb
  simp only at hvd
  obtain ⟨hl, hu, hb⟩ := hexPairs_sound _ _ hp
  have hbytes := varintDecode_inv bytes _ _ hb hvd
  rw [varintEncode_code] at hbytes
  have hbytes2 : bytes = [multihashFunctionCode alg, 1, payload.length] ++ payload := by
    rw [← hbytes]
    rfl
  have hlen : payload.length < 256 := by
    apply hb
    rw [hbytes2]
    simp
  rw [display_eq alg payload hlen]
  unfold caseNormalize
  rw [show (String.mk (s.data.filter (fun c => c ≠ ' '))).data =
    s.data.filter (fun c => c ≠ ' ') from rfl]
  rw [List.map_take, List.map_drop, ← hl, ← hu, hbytes2,
    hexEncodeLower_append, hexEncodeUpper_append,
    List.take_left' (show (hexEncodeLower [multihashFunctionCode alg, 1, payload.length]).length
      = 6 from rfl),
    List.drop_left' (show (hexEncodeUpper [multihashFunctionCode alg, 1, payload.length]).length
      = 6 from rfl)]
  rw [show ([multihashFunctionCode alg, 1, payload.length] : Bytes) =
    [multihashFunctionCode alg, 1] ++ [payload.length] from rfl, hexEncodeLower_append,
    List.append_assoc]

/-- Sample concrete instantiation of the abstracted ursa keypair entry
point: derivation always succeeds with fixed payloads. -/
def sampleUrsa : UrsaKeypairFn := fun _ _ => .ok ([0], [1])

/-- Concrete instantiation of the abstracted ursa keypair entry point
whose derivation always fails with a key generation error. -/
def failingUrsa : UrsaKeypairFn := fun _ _ => .error (.KeyGenError "invalid secret")

theorem try_from_private_digest {ursa : UrsaKeypairFn} {priv : PrivateKey}
    {derived : PublicKey} (h : PublicKey.try_from_private ursa priv = .ok derived) :
    derived.digest_function = priv.digest_function := by
  unfold PublicKey.try_from_private at h
  split at h
  · injection h with h
    subst h
    rfl
  · simp at h

theorem from_private_some_iff {ursa : UrsaKeypairFn} {priv : PrivateKey}
    {derived : PublicKey} :
    PublicKey.from_private ursa priv = some derived ↔
      PublicKey.try_from_private ursa priv = .ok derived := by
  unfold PublicKey.from_private
  cases ht : PublicKey.try_from_private ursa priv with
  | ok pk => simp
  | error e => simp

theorem keyPair_new_ok_inv {ursa : UrsaKeypairFn} {pub : PublicKey} {priv : PrivateKey}
    {kp : KeyPair} (h : KeyPair.new ursa pub priv = some (.ok kp)) :
    kp = { public_key := pub, private_key := priv }
    ∧ priv.digest_function = pub.digest_function
    ∧ PublicKey.try_from_private ursa priv = .ok pub := by
  unfold KeyPair.new at h
  split_ifs at h with hne
  · simp at h
  · push_neg at hne
    cases hfp : PublicKey.from_private ursa priv with
    | none => rw [hfp] at h; cases h
    | some derived =>
      rw [hfp] at h
      replace h : (if derived ≠ pub then some (Except.error (Error.KeyGen "Key pair mismatch"))
          else some (Except.ok { public_key := pub, private_key := priv })) =
          some (Except.ok kp) := h
      by_cases hdp : derived = pub
      · rw [if_neg (by simp [hdp])] at h
        injection h with h
        injection h with h
        exact ⟨h.symm, hne, by rw [← hdp]; exact from_private_some_iff.mp hfp⟩
      · rw [if_pos hdp] at h
        simp at h

theorem generate_ok_inv {ursa : UrsaKeypairFn} {cfg : KeyGenConfiguration} {kp : KeyPair}
    (h : KeyPair.generate_with_configuration ursa cfg = .ok kp) :
    kp.public_key.digest_function = cfg.algorithm
    ∧ kp.private_key.digest_function = cfg.algorithm := by
  unfold KeyPair.generate_with_configuration at h
  dsimp only at h
  split at h
  · simp at h
  · split at h
    · simp at h
    · next public_key private_key heq =>
      injection h with h
      subst h
      exact ⟨rfl, rfl⟩

/-- Claim C1: KeyPair::new(public_key, private_key) returns Ok exactly
when the public key derived from the private key equals the given
public key byte-exactly (stated under the hypothesis that the
derivation itself succeeds, since a failing derivation panics inside
the From conversion rather than returning); differing digest functions
give a KeyGen-class error, and agreeing digest functions with a
mismatched derived public key also give a KeyGen-class error. -/
theorem keyPair_new_correct_C1 (ursa : UrsaKeypairFn) (pub : PublicKey)
    (priv : PrivateKey) (derived : PublicKey)
    (h : PublicKey.try_from_private ursa priv = .ok derived) :
    (KeyPair.new ursa pub priv =
        some (.ok { public_key := pub, private_key := priv }) ↔ derived = pub)
    ∧ (priv.digest_function ≠ pub.digest_function →
        KeyPair.new ursa pub priv = some (.error (.KeyGen "Mismatch of key algorithms")))
    ∧ (priv.digest_function = pub.digest_function → derived ≠ pub →
        KeyPair.new ursa pub priv = some (.error (.KeyGen "Key pair mismatch"))) := by
  have hdig : derived.digest_function = priv.digest_function := try_from_private_digest h
  have hfp : PublicKey.from_private ursa priv = some derived := from_private_some_iff.mpr h
  refine ⟨⟨?_, ?_⟩, ?_, ?_⟩
  · intro hnew
    have h2 := (keyPair_new_ok_inv hnew).2.2
    rw [h] at h2
    injection h2
  · intro hdp
    have hne : ¬ (priv.digest_function ≠ pub.digest_function) := by
      intro hc
      exact hc (by rw [← hdp, hdig])
    unfold KeyPair.new
    rw [if_neg hne, hfp]
    show (if derived ≠ pub then some (Except.error (Error.KeyGen "Key pair mismatch"))
      else some (Except.ok { public_key := pub, private_key := priv })
      : Option (Except Error KeyPair)) = _
    rw [if_neg (by simp [hdp])]
  · intro hne
    unfold KeyPair.new
    rw [if_pos hne]
  · intro hdq hdp
    unfold KeyPair.new
    rw [if_neg (by simp [hdq]), hfp]
    show (if derived ≠ pub then some (Except.error (Error.KeyGen "Key pair mismatch"))
      else some (Except.ok { public_key := pub, private_key := priv })
      : Option (Except Error KeyPair)) = _
    rw [if_pos hdp]

/-- Witness for claim C1 at a concrete oracle and matching key pair. -/
theorem keyPair_new_correct_C1_witness :
    PublicKey.try_from_private sampleUrsa { digest_function := .Ed25519, payload := [1] } =
      .ok { digest_function := .Ed25519, payload := [0] }
    ∧ (KeyPair.new sampleUrsa { digest_function := .Ed25519, payload := [0] }
          { digest_function := .Ed25519, payload := [1] } =
        some (.ok { public_key := { digest_function := .Ed25519, payload := [0] },
                    private_key := { digest_function := .Ed25519, payload := [1] } }) ↔
      ({ digest_function := .Ed25519, payload := [0] } : PublicKey) =
        { digest_function := .Ed25519, payload := [0] }) :=
  ⟨by decide, (keyPair_new_correct_C1 sampleUrsa _ _ _ (by decide)).1⟩

/-- Configuration carrying KeyGenOption::FromPrivateKey with a BLS
private key, used to exhibit claim C2's failure mode. -/
def blsFromPrivateConfig : KeyGenConfiguration :=
  { key_gen_option := some (.FromPrivateKey { digest_function := .BlsNormal, payload := [7] }),
    algorithm := .BlsNormal }

/-- Claim C2 counterexample: generate_with_configuration with
FromPrivateKey of a BLS private key does fail, but the error returned
is Error::NoSuchAlgorithm, which is not of the KeyGen class the claim
names. -/
theorem generate_bls_error_class_counterexample_C2 :
    KeyPair.generate_with_configuration sampleUrsa blsFromPrivateConfig =
      .error Error.NoSuchAlgorithm
    ∧ Error.is_key_gen Error.NoSuchAlgorithm = false :=
  ⟨by decide, rfl⟩

/-- Claim C2 (amended): for every configuration whose option is
FromPrivateKey of a BlsNormal or BlsSmall private key,
generate_with_configuration fails with Error::NoSuchAlgorithm (not a
KeyGen-class error); for Ed25519 and Secp256k1 private keys the
FromPrivateKey option is accepted by the conversion to the ursa
option. -/
theorem generate_bls_from_private_C2 (ursa : UrsaKeypairFn)
    (cfg : KeyGenConfiguration) (key : PrivateKey) :
    (cfg.key_gen_option = some (.FromPrivateKey key) →
      (key.digest_function = .BlsNormal ∨ key.digest_function = .BlsSmall) →
      KeyPair.generate_with_configuration ursa cfg = .error Error.NoSuchAlgorithm)
    ∧ ((key.digest_function = .Ed25519 ∨ key.digest_function = .Secp256k1) →
      UrsaKeyGenOption.try_from (.FromPrivateKey key) = .ok (.FromSecretKey key.payload)) := by
  obtain ⟨kd, kp⟩ := key
  constructor
  · intro hopt hbls
    simp only at hbls
    unfold KeyPair.generate_with_configuration
    dsimp only
    rw [hopt]
    rcases hbls with hd | hd <;> subst hd <;> rfl
  · intro hed
    simp only at hed
    rcases hed with hd | hd <;> subst hd <;> rfl

/-- Witness for claim C2 (amended) at the concrete BLS configuration
and at a concrete Ed25519 key. -/
theorem generate_bls_from_private_C2_witness :
    blsFromPrivateConfig.key_gen_option =
      some (.FromPrivateKey { digest_function := .BlsNormal, payload := [7] })
    ∧ KeyPair.generate_with_configuration sampleUrsa blsFromPrivateConfig =
        .error Error.NoSuchAlgorithm
    ∧ UrsaKeyGenOption.try_from
        (.FromPrivateKey { digest_function := .Ed25519, payload := [9] }) =
        .ok (.FromSecretKey [9]) :=
  ⟨by decide,
   (generate_bls_from_private_C2 sampleUrsa blsFromPrivateConfig
      { digest_function := .BlsNormal, payload := [7] }).1 (by decide) (Or.inl rfl),
   (generate_bls_from_private_C2 sampleUrsa blsFromPrivateConfig
      { digest_function := .Ed25519, payload := [9] }).2 (Or.inl rfl)⟩

/-- The Ed25519 public-key fixture from the crate's test module, in its
canonical display form. -/
def fixtureDisplay : String :=
  "ed01201509A611AD6D97B01D871E58ED00C8FD7C3917B6CA61A8C2833A19E000AAC2E4"

/-- The same fixture with one embedded space, still accepted by
PublicKey::from_str because hex_decode drops spaces. -/
def spacedFixture : String :=
  "ed01 201509A611AD6D97B01D871E58ED00C8FD7C3917B6CA61A8C2833A19E000AAC2E4"

/-- The public key the fixture strings denote. -/
def fixtureKey : PublicKey :=
  { digest_function := .Ed25519,
    payload := [21, 9, 166, 17, 173, 109, 151, 176, 29, 135, 30, 88, 237, 0, 200, 253,
                124, 57, 23, 182, 202, 97, 168, 194, 131, 58, 25, 224, 0, 170, 194, 228] }

/-- Claim C3: the Display text of a PublicKey is the concatenation,
with no separators, of the lower-case hex of the multihash prefix
bytes (the varint function code followed by the digest-size byte) and
the upper-case hex of the payload; in particular an Ed25519 key with a
32-byte payload displays as "ed0120" followed by the upper-case hex of
its payload. -/
theorem public_key_display_form_C3 (pk : PublicKey) (hlen : pk.payload.length < 256) :
    PublicKey.display pk = some (String.mk (
      hexEncodeLower (varintEncode (multihashFunctionCode pk.digest_function))
      ++ hexEncodeLower [pk.payload.length]
      ++ hexEncodeUpper pk.payload))
    ∧ (pk.digest_function = .Ed25519 → pk.payload.length = 32 →
      PublicKey.display pk =
        some (String.mk ("ed0120".data ++ hexEncodeUpper pk.payload))) := by
  obtain ⟨alg, payload⟩ := pk
  simp only at hlen
  constructor
  · rw [display_eq alg payload hlen, varintEncode_code]
  · intro halg hl32
    simp only at halg hl32
    subst halg
    rw [display_eq .Ed25519 payload hlen, hl32]
    rw [show hexEncodeLower [multihashFunctionCode Algorithm.Ed25519, 1]
      ++ hexEncodeLower [32] = "ed0120".data from by decide]

/-- Witness for claim C3 at the Ed25519 fixture key. -/
theorem public_key_display_form_C3_witness :
    fixtureKey.payload.length < 256
    ∧ PublicKey.display fixtureKey =
        some (String.mk ("ed0120".data ++ hexEncodeUpper fixtureKey.payload)) :=
  ⟨by decide,
   (public_key_display_form_C3 fixtureKey (by decide)).2 (by decide) (by decide)⟩

/-- Claim C4 counterexample: PublicKey::from_str accepts a string with
an embedded space, but the display of the parsed key drops the space,
so redisplay does not reproduce the accepted string up to the defined
case normalization (the lengths differ, and the display is not the
case-normalized input). -/
theorem from_str_display_space_counterexample_C4 :
    PublicKey.from_str spacedFixture = .ok fixtureKey
    ∧ PublicKey.display fixtureKey = some fixtureDisplay
    ∧ fixtureDisplay.length ≠ spacedFixture.length
    ∧ fixtureDisplay ≠ caseNormalize spacedFixture :=
  ⟨by decide, by decide, by decide, by decide⟩

/-- Claim C4 (amended): for every string that PublicKey::from_str
accepts, displaying the parsed key reproduces the string up to the
defined case normalization after removal of embedded spaces (the space
removal being forced by the counterexample); conversely, for every
PublicKey whose payload is at most 255 byte values, parsing its
Display output yields an equal PublicKey; the Ed25519 fixture parses
and redisplays identically. -/
theorem from_str_display_roundtrip_C4 :
    (∀ (s : String) (pk : PublicKey), PublicKey.from_str s = .ok pk →
      PublicKey.display pk =
        some (caseNormalize (String.mk (s.data.filter (fun c => c ≠ ' ')))))
    ∧ (∀ pk : PublicKey, pk.payload.length < 256 → (∀ b ∈ pk.payload, b < 256) →
      ∃ d, PublicKey.display pk = some d ∧ PublicKey.from_str d = .ok pk)
    ∧ PublicKey.from_str fixtureDisplay = .ok fixtureKey
    ∧ PublicKey.display fixtureKey = some fixtureDisplay := by
  refine ⟨fun s pk h => from_str_accepted_display s pk h, ?_, by decide, by decide⟩
  intro pk hlen hbytes
  obtain ⟨alg, payload⟩ := pk
  exact ⟨_, display_eq alg payload hlen, from_str_display alg payload hlen hbytes⟩

/-- Witness for claim C4 at the Ed25519 fixture. -/
theorem from_str_display_roundtrip_C4_witness :
    PublicKey.from_str fixtureDisplay = .ok fixtureKey
    ∧ PublicKey.display fixtureKey =
        some (caseNormalize (String.mk (fixtureDisplay.data.filter (fun c => c ≠ ' ')))) :=
  ⟨by decide, from_str_display_roundtrip_C4.1 fixtureDisplay fixtureKey (by decide)⟩

/-- Claim C5: each Algorithm's display name parses back to the same
variant, and every string other than the four fixed lowercase names
fails with NoSuchAlgorithm. -/
theorem algorithm_from_str_display_C5 :
    (∀ a : Algorithm, Algorithm.from_str (Algorithm.display a) = .ok a)
    ∧ (∀ s : String, s ≠ "ed25519" → s ≠ "secp256k1" → s ≠ "bls_normal" → s ≠ "bls_small" →
      Algorithm.from_str s = .error ⟨⟩) := by
  constructor
  · intro a
    cases a <;> rfl
  · intro s h1 h2 h3 h4
    unfold Algorithm.from_str ED_25519 SECP_256_K1 BLS_NORMAL BLS_SMALL
    rw [if_neg h1, if_neg h2, if_neg h3, if_neg h4]

/-- Witness for claim C5 at each variant and at an unknown name. -/
theorem algorithm_from_str_display_C5_witness :
    Algorithm.from_str (Algorithm.display .Ed25519) = .ok .Ed25519
    ∧ Algorithm.from_str (Algorithm.display .Secp256k1) = .ok .Secp256k1
    ∧ Algorithm.from_str (Algorithm.display .BlsNormal) = .ok .BlsNormal
    ∧ Algorithm.from_str (Algorithm.display .BlsSmall) = .ok .BlsSmall
    ∧ Algorithm.from_str "foo" = .error ⟨⟩ :=
  ⟨algorithm_from_str_display_C5.1 .Ed25519,
   algorithm_from_str_display_C5.1 .Secp256k1,
   algorithm_from_str_display_C5.1 .BlsNormal,
   algorithm_from_str_display_C5.1 .BlsSmall,
   algorithm_from_str_display_C5.2 "foo" (by decide) (by decide) (by decide) (by decide)⟩

/-- Claim C6: PrivateKey::from_hex decodes the hex string ignoring
embedded spaces and returns Ok with the given algorithm and the decoded
payload exactly when deriving a public key from the candidate key
succeeds; a failing derivation is rejected with its error; and
from_hex_unchecked performs no such validation, failing only when the
hex decoding itself fails. -/
theorem private_key_from_hex_C6 (ursa : UrsaKeypairFn) (alg : Algorithm) (s : String) :
    hex_decode s = hex_decode (String.mk (s.data.filter (fun c => c ≠ ' ')))
    ∧ (∀ e, hex_decode s = .error e →
        PrivateKey.from_hex ursa alg s = .error e
        ∧ PrivateKey.from_hex_unchecked alg s = .error e)
    ∧ (∀ p, hex_decode s = .ok p →
        ((PrivateKey.from_hex ursa alg s = .ok { digest_function := alg, payload := p }) ↔
          exceptOk (PublicKey.try_from_private ursa
            { digest_function := alg, payload := p }) = true)
        ∧ (∀ e, PublicKey.try_from_private ursa { digest_function := alg, payload := p } =
              .error e →
            PrivateKey.from_hex ursa alg s = .error e)
        ∧ PrivateKey.from_hex_unchecked alg s = .ok { digest_function := alg, payload := p }) := by
  refine ⟨?_, ?_, ?_⟩
  · unfold hex_decode
    rw [show (String.mk (s.data.filter (fun c => c ≠ ' '))).data =
      s.data.filter (fun c => c ≠ ' ') from rfl]
    rw [List.filter_filter]
    simp
  · intro e he
    constructor
    · unfold PrivateKey.from_hex
      rw [he]
    · unfold PrivateKey.from_hex_unchecked
      rw [he]
  · intro p hp
    refine ⟨⟨?_, ?_⟩, ?_, ?_⟩
    · intro hok
      unfold PrivateKey.from_hex at hok
      rw [hp] at hok
      replace hok : (match PublicKey.try_from_private ursa
            { digest_function := alg, payload := p } with
          | Except.ok _ =>
            (Except.ok { digest_function := alg, payload := p } : Except Error PrivateKey)
          | Except.error e => Except.error e) =
          Except.ok { digest_function := alg, payload := p } := hok
      cases ht : PublicKey.try_from_private ursa { digest_function := alg, payload := p } with
      | ok pk => rfl
      | error e =>
        rw [ht] at hok
        simp at hok
    · intro hderiv
      unfold PrivateKey.from_hex
      rw [hp]
      show (match PublicKey.try_from_private ursa
            { digest_function := alg, payload := p } with
          | Except.ok _ =>
            (Except.ok { digest_function := alg, payload := p } : Except Error PrivateKey)
          | Except.error e => Except.error e) =
          Except.ok { digest_function := alg, payload := p }
      cases ht : PublicKey.try_from_private ursa { digest_function := alg, payload := p } with
      | ok pk => rfl
      | error e =>
        rw [ht] at hderiv
        simp [exceptOk] at hderiv
    · intro e ht
      unfold PrivateKey.from_hex
      rw [hp]
      show (match PublicKey.try_from_private ursa
            { digest_function := alg, payload := p } with
          | Except.ok _ =>
            (Except.ok { digest_function := alg, payload := p } : Except Error PrivateKey)
          | Except.error e => Except.error e) = Except.error e
      rw [ht]
    · unfold PrivateKey.from_hex_unchecked
      rw [hp]

/-- Witness for claim C6 at a concrete oracle, algorithm and string. -/
theorem private_key_from_hex_C6_witness :
    hex_decode "0a 0b" = .ok [10, 11]
    ∧ ((PrivateKey.from_hex sampleUrsa .Ed25519 "0a 0b" =
          .ok { digest_function := .Ed25519, payload := [10, 11] }) ↔
        exceptOk (PublicKey.try_from_private sampleUrsa
          { digest_function := .Ed25519, payload := [10, 11] }) = true) :=
  ⟨by decide, ((private_key_from_hex_C6 sampleUrsa .Ed25519 "0a 0b").2.2 [10, 11] (by decide)).1⟩

/-- Claim C7: record deserialization validates: a PrivateKey record
whose payload does not derive a public key for its declared digest
function fails to deserialize with the derivation's error, a KeyPair
record with differing digest functions fails, and a KeyPair record
deserializes successfully only when the halves carry the same digest
function and the private key derives exactly the public key. -/
theorem deserialize_validates_C7 (ursa : UrsaKeypairFn) :
    (∀ (alg : Algorithm) (s : String) (p : Bytes) (e : Error),
      hex_decode s = .ok p →
      PublicKey.try_from_private ursa { digest_function := alg, payload := p } = .error e →
      PrivateKey.deserialize ursa alg s = .error e)
    ∧ (∀ (pub : PublicKey) (priv : PrivateKey),
        priv.digest_function ≠ pub.digest_function →
        KeyPair.deserialize ursa pub priv =
          some (.error (.KeyGen "Mismatch of key algorithms")))
    ∧ (∀ (pub : PublicKey) (priv : PrivateKey) (kp : KeyPair),
        KeyPair.deserialize ursa pub priv = some (.ok kp) →
        kp = { public_key := pub, private_key := priv }
        ∧ priv.digest_function = pub.digest_function
        ∧ PublicKey.try_from_private ursa priv = .ok pub) := by
  refine ⟨?_, ?_, ?_⟩
  · intro alg s p e hp ht
    unfold PrivateKey.deserialize PrivateKey.from_hex
    rw [hp]
    show (match PublicKey.try_from_private ursa
          { digest_function := alg, payload := p } with
        | Except.ok _ =>
          (Except.ok { digest_function := alg, payload := p } : Except Error PrivateKey)
        | Except.error e => Except.error e) = Except.error e
    rw [ht]
  · intro pub priv hne
    unfold KeyPair.deserialize KeyPair.new
    rw [if_pos hne]
  · intro pub priv kp h
    exact keyPair_new_ok_inv h

/-- Witness for claim C7 at concrete records. -/
theorem deserialize_validates_C7_witness :
    PublicKey.try_from_private failingUrsa { digest_function := .Ed25519, payload := [0] } =
      .error (.KeyGen "invalid secret")
    ∧ PrivateKey.deserialize failingUrsa .Ed25519 "00" = .error (.KeyGen "invalid secret")
    ∧ KeyPair.deserialize sampleUrsa { digest_function := .Ed25519, payload := [0] }
        { digest_function := .Secp256k1, payload := [1] } =
        some (.error (.KeyGen "Mismatch of key algorithms")) :=
  ⟨by decide,
   (deserialize_validates_C7 failingUrsa).1 .Ed25519 "00" [0]
     (.KeyGen "invalid secret") (by decide) (by decide),
   (deserialize_validates_C7 sampleUrsa).2.1
     { digest_function := .Ed25519, payload := [0] }
     { digest_function := .Secp256k1, payload := [1] } (by decide)⟩

/-- Claim C8: KeyPair::generate() is exactly
generate_with_configuration of the default configuration, whose
algorithm is Ed25519 (the default Algorithm) and whose key generation
option is absent; and every successful generation returns keys whose
digest functions both equal the configured algorithm. -/
theorem generate_default_C8 (ursa : UrsaKeypairFn) :
    KeyPair.generate ursa =
      KeyPair.generate_with_configuration ursa KeyGenConfiguration.default
    ∧ KeyGenConfiguration.default.algorithm = Algorithm.default
    ∧ Algorithm.default = Algorithm.Ed25519
    ∧ KeyGenConfiguration.default.key_gen_option = none
    ∧ (∀ (cfg : KeyGenConfiguration) (kp : KeyPair),
        KeyPair.generate_with_configuration ursa cfg = .ok kp →
        kp.public_key.digest_function = cfg.algorithm
        ∧ kp.private_key.digest_function = cfg.algorithm) :=
  ⟨rfl, rfl, rfl, rfl, fun _ _ h => generate_ok_inv h⟩

/-- Witness for claim C8 at a concrete oracle and the default
configuration. -/
theorem generate_default_C8_witness :
    KeyPair.generate_with_configuration sampleUrsa KeyGenConfiguration.default =
      .ok { public_key := { digest_function := .Ed25519, payload := [0] },
            private_key := { digest_function := .Ed25519, payload := [1] } }
    ∧ ({ public_key := { digest_function := .Ed25519, payload := [0] },
         private_key := { digest_function := .Ed25519, payload := [1] } }
        : KeyPair).public_key.digest_function = KeyGenConfiguration.default.algorithm :=
  ⟨by decide,
   ((generate_default_C8 sampleUrsa).2.2.2.2 KeyGenConfiguration.default _ (by decide)).1⟩

/-- Claim C9: every KeyPair obtainable from KeyPair::new or from
generate_with_configuration has a public key and a private key with
the same digest function, so KeyPair::digest_function, which reads the
private key's digest function, equals the public key's. -/
theorem keypair_digest_invariant_C9 (ursa : UrsaKeypairFn) :
    (∀ (pub : PublicKey) (priv : PrivateKey) (kp : KeyPair),
      KeyPair.new ursa pub priv = some (.ok kp) →
      kp.public_key.digest_function = kp.private_key.digest_function
      ∧ KeyPair.digest_function kp = kp.public_key.digest_function)
    ∧ (∀ (cfg : KeyGenConfiguration) (kp : KeyPair),
      KeyPair.generate_with_configuration ursa cfg = .ok kp →
      kp.public_key.digest_function = kp.private_key.digest_function
      ∧ KeyPair.digest_function kp = kp.public_key.digest_function) := by
  constructor
  · intro pub priv kp h
    obtain ⟨hkp, hdig, _⟩ := keyPair_new_ok_inv h
    subst hkp
    exact ⟨hdig.symm, hdig⟩
  · intro cfg kp h
    obtain ⟨h1, h2⟩ := generate_ok_inv h
    unfold KeyPair.digest_function
    rw [h1, h2]
    exact ⟨rfl, rfl⟩

/-- Witness for claim C9 at a concrete oracle and key pair. -/
theorem keypair_digest_invariant_C9_witness :
    KeyPair.new sampleUrsa { digest_function := .Ed25519, payload := [0] }
        { digest_function := .Ed25519, payload := [2] } =
      some (.ok { public_key := { digest_function := .Ed25519, payload := [0] },
                  private_key := { digest_function := .Ed25519, payload := [2] } })
    ∧ ({ public_key := { digest_function := .Ed25519, payload := [0] },
         private_key := { digest_function := .Ed25519, payload := [2] } }
        : KeyPair).public_key.digest_function =
      ({ public_key := { digest_function := .Ed25519, payload := [0] },
         private_key := { digest_function := .Ed25519, payload := [2] } }
        : KeyPair).private_key.digest_function :=
  ⟨by decide,
   ((keypair_digest_invariant_C9 sampleUrsa).1
     { digest_function := .Ed25519, payload := [0] }
     { digest_function := .Ed25519, payload := [2] } _ (by decide)).1⟩

/-- Claim C10: a PrivateKey successfully returned by from_hex never
hits the panic branch of From PrivateKey for PublicKey — on such a key
try_from_private returns Ok and the From conversion produces a value;
the panic branch is reachable for a key built by from_hex_unchecked,
exhibited by a concrete failing derivation. -/
theorem from_hex_no_panic_C10 :
    (∀ (ursa : UrsaKeypairFn) (alg : Algorithm) (s : String) (k : PrivateKey),
      PrivateKey.from_hex ursa alg s = .ok k →
      exceptOk (PublicKey.try_from_private ursa k) = true
      ∧ (PublicKey.from_private ursa k).isSome = true)
    ∧ (PrivateKey.from_hex_unchecked Algorithm.Ed25519 "00" =
        .ok { digest_function := .Ed25519, payload := [0] }
      ∧ PublicKey.from_private failingUrsa { digest_function := .Ed25519, payload := [0] } =
        none) := by
  constructor
  · intro ursa alg s k h
    unfold PrivateKey.from_hex at h
    cases hp : hex_decode s with
    | error e => rw [hp] at h; simp at h
    | ok p =>
      rw [hp] at h
      replace h : (match PublicKey.try_from_private ursa
            { digest_function := alg, payload := p } with
          | Except.ok _ =>
            (Except.ok { digest_function := alg, payload := p } : Except Error PrivateKey)
          | Except.error e => Except.error e) = Except.ok k := h
      cases ht : PublicKey.try_from_private ursa { digest_function := alg, payload := p } with
      | error e =>
        rw [ht] at h
        simp at h
      | ok pk =>
        rw [ht] at h
        replace h : (Except.ok { digest_function := alg, payload := p }
            : Except Error PrivateKey) = .ok k := h
        injection h with h
        subst h
        constructor
        · rw [ht]
          rfl
        · rw [from_private_some_iff.mpr ht]
          rfl
  · exact ⟨by decide, by decide⟩

/-- Witness for claim C10 at a concrete oracle and hex string. -/
theorem from_hex_no_panic_C10_witness :
    PrivateKey.from_hex sampleUrsa .Ed25519 "00" =
      .ok { digest_function := .Ed25519, payload := [0] }
    ∧ exceptOk (PublicKey.try_from_private sampleUrsa
        { digest_function := .Ed25519, payload := [0] }) = true
      ∧ (PublicKey.from_private sampleUrsa
          { digest_function := .Ed25519, payload := [0] }).isSome = true :=
  ⟨by decide,
   from_hex_no_panic_C10.1 sampleUrsa .Ed25519 "00"
     { digest_function := .Ed25519, payload := [0] } (by decide)⟩
